import Mathlib

/-!
Verification of the Saturn-DEX/distributions validation scripts.

This file gives a shallow embedding of the two CI validators of the
repository:

* `.github/scripts/validate-merkle.js` — `validateMerkleTree` and the
  per-file portion of its `main` driver;
* `.github/scripts/validate-distributions.js` — `validateDistributionFile`
  and its helper predicates `isValidAddress` (which delegates to
  `ethers.isAddress`) and `isValidBytes32`.

JavaScript values produced by `JSON.parse` are modelled by the inductive
type `JsValue` (with an extra `undef` constructor for the JavaScript value
`undefined`, which arises from missing-property reads).  JSON numbers are
modelled as `Int`: every numeric field checked by these scripts
(`chainId`, leaf indices, `treeIndex`, array lengths) is integral, and no
check performs fractional arithmetic.  Code that can throw a JavaScript
`TypeError` (property reads on `null`/`undefined`, the `in` operator on
primitives) is modelled in the `Except String` monad, the error being the
message carried by the thrown error (as interpolated by the scripts).
-/

namespace Saturn

/-- Model of a JavaScript value as produced by `JSON.parse`, plus
`undefined` (the result of reading an absent property).  Object field
lists are the post-parse contents, so keys are unique (JSON.parse keeps
the last duplicate key).  Numbers are modelled as `Int`; see the file
header. -/
inductive JsValue where
  | undef : JsValue
  | null : JsValue
  | bool : Bool → JsValue
  | num : Int → JsValue
  | str : String → JsValue
  | arr : List JsValue → JsValue
  | obj : List (String × JsValue) → JsValue

/-- JavaScript truthiness of a value (`if (v)`).  `0` and the empty string
are falsy; every array and object is truthy. -/
def JsValue.truthy : JsValue → Bool
  | .undef => false
  | .null => false
  | .bool b => b
  | .num n => !(n == 0)
  | .str s => !(s == "")
  | .arr _ => true
  | .obj _ => true

/-- `Array.isArray`. -/
def JsValue.isArr : JsValue → Bool
  | .arr _ => true
  | _ => false

/-- Whether the value is a (non-array) object. -/
def JsValue.isObj : JsValue → Bool
  | .obj _ => true
  | _ => false

/-- `typeof v === "number"`. -/
def JsValue.isNum : JsValue → Bool
  | .num _ => true
  | _ => false

/-- `typeof v === "string"`. -/
def JsValue.isStr : JsValue → Bool
  | .str _ => true
  | _ => false

/-- The element list of an array value (`[]` for non-arrays). -/
def JsValue.elems : JsValue → List JsValue
  | .arr xs => xs
  | _ => []

/-- First-match lookup in an object field list. -/
def lookupField : List (String × JsValue) → String → Option JsValue
  | [], _ => none
  | p :: rest, k => if p.1 = k then some p.2 else lookupField rest k

/-- The value of property `k` of a non-nullish value: object fields by
name, `length` for arrays and strings, `undefined` otherwise (methods are
modelled structurally where the scripts call them).  Reading a property
of `null`/`undefined` is handled by `getProp`. -/
def propValue : JsValue → String → JsValue
  | .obj fs, k => (lookupField fs k).getD .undef
  | .arr xs, k => if k = "length" then .num xs.length else .undef
  | .str s, k => if k = "length" then .num s.data.length else .undef
  | _, _ => JsValue.undef

/-- JavaScript property read `v.k`: throws a `TypeError` on `null` and
`undefined`, otherwise yields `propValue`. -/
def getProp : JsValue → String → Except String JsValue
  | .null, k =>
      .error ("Cannot read properties of null (reading \x27" ++ k ++ "\x27)")
  | .undef, k =>
      .error ("Cannot read properties of undefined (reading \x27" ++ k ++ "\x27)")
  | v, k => .ok (propValue v k)

/-- Index read `v[i]` with a numeric literal index: throws on
`null`/`undefined`; array and string indexing; objects fall back to the
string key; other primitives give `undefined`. -/
def jsIndex : JsValue → Nat → Except String JsValue
  | .null, i =>
      .error ("Cannot read properties of null (reading \x27" ++ toString i ++ "\x27)")
  | .undef, i =>
      .error ("Cannot read properties of undefined (reading \x27" ++ toString i ++ "\x27)")
  | .arr xs, i => .ok (xs.getD i .undef)
  | .str s, i => .ok (((s.data.drop i).head?.map (fun c => JsValue.str (String.mk [c]))).getD .undef)
  | .obj fs, i => .ok ((lookupField fs (toString i)).getD .undef)
  | _, _ => .ok JsValue.undef

/-- Index read on a value known to be non-nullish (used where the scripts
have already established the receiver, e.g. `tree?.[0]` after an
`Array.isArray` check). -/
def jsIndexD (v : JsValue) (i : Nat) : JsValue :=
  ((jsIndex v i).toOption).getD .undef

mutual

/-- JavaScript `String(v)` for JSON-derived values: `Array.prototype.toString`
joins elements with commas, rendering `null`/`undefined` elements as
empty; plain objects render as `[object Object]`. -/
def jsToString : JsValue → String
  | .undef => "undefined"
  | .null => "null"
  | .bool b => cond b "true" "false"
  | .num n => toString n
  | .str s => s
  | .obj _ => "[object Object]"
  | .arr xs => String.intercalate "," (jsToStringList xs)

/-- Element-wise rendering for `Array.prototype.toString`. -/
def jsToStringList : List JsValue → List String
  | [] => []
  | v :: rest =>
      (match v with
        | .undef => ""
        | .null => ""
        | v => jsToString v) :: jsToStringList rest

end

/-- JavaScript strict equality `===` between the compared values of these
scripts.  Arrays and objects compare by reference in JavaScript; every
comparison the scripts make is between values originating from distinct
`JSON.parse` results (or a freshly read property), which are never
reference-equal, so structural array/object operands are modelled as
unequal. -/
def jsStrictEq : JsValue → JsValue → Bool
  | .undef, .undef => true
  | .null, .null => true
  | .bool a, .bool b => a == b
  | .num a, .num b => a == b
  | .str a, .str b => a == b
  | _, _ => false

/-- Own-property test used by the `in` operator on objects and arrays. -/
def jsHasField : JsValue → String → Bool
  | .obj fs, k => (lookupField fs k).isSome
  | .arr xs, k =>
      if k = "length" then true
      else
        match k.toNat? with
        | some i => decide (i < xs.length) && (toString i == k)
        | none => false
  | _, _ => false

/-- The `in` operator `k in v`: throws a `TypeError` unless `v` is an
object (arrays included). -/
def jsHasFieldE (v : JsValue) (k : String) : Except String Bool :=
  match v with
  | .obj _ => .ok (jsHasField v k)
  | .arr _ => .ok (jsHasField v k)
  | _ =>
      .error ("Cannot use \x27in\x27 operator to search for \x27" ++ k ++ "\x27 in "
        ++ jsToString v)

/-- `[0-9a-fA-F]`. -/
def isHexDigitChar (c : Char) : Bool :=
  ('0' ≤ c && c ≤ '9') || ('a' ≤ c && c ≤ 'f') || ('A' ≤ c && c ≤ 'F')

/-- `[0-9]`. -/
def isDigitChar (c : Char) : Bool := '0' ≤ c && c ≤ '9'

/-- Whether the string starts with the two characters `0x`. -/
def startsWith0x (s : String) : Bool := List.isPrefixOf ['0', 'x'] s.data

/-- The merkle validator address regex `^0x[a-fA-F0-9]{40}$` (also the
strict address format named by the specification). -/
def addrRegexMatch (s : String) : Bool :=
  startsWith0x s && (s.data.length == 42) && (s.data.drop 2).all isHexDigitChar

/-- The amount regex `^\d+$`. -/
def amountRegexMatch (s : String) : Bool :=
  !s.data.isEmpty && s.data.all isDigitChar

/-- Fuel-structured ceiling base-2 logarithm; `(n+1)/2 < n` for `n ≥ 2`,
so fuel `n` always suffices in `ceilLog2`. -/
def ceilLog2Go : Nat → Nat → Nat
  | 0, _ => 0
  | fuel + 1, n => if 2 ≤ n then ceilLog2Go fuel ((n + 1) / 2) + 1 else 0

/-- `Math.ceil(Math.log2 n)` for natural `n ≥ 1` (0 for `n ≤ 1`; the
JavaScript value for `n = 0` is `-Infinity`, which the `Math.max(1, …)`
in `minTreeLength` absorbs exactly as the 0 here does).  Double-precision
`Math.log2` is exact on powers of two and within `10^-14` elsewhere,
while the distance of `log2 n` to the nearest integer exceeds `10^-10`
for every non-power-of-two below the maximal array length `2^32 - 1`, so
the ceiling of the floating-point computation equals this function on
every reachable input. -/
def ceilLog2 (n : Nat) : Nat := ceilLog2Go n n

/-- `Math.max(1, Math.ceil(Math.log2(valueCount)) * 2)` from
`validate-merkle.js`. -/
def minTreeLength (n : Nat) : Nat := max 1 (ceilLog2 n * 2)

/-- Errors for one entry of the `values` array (`validate-merkle.js`,
per-leaf loop).  Throws where the script would (reading `.value` or
`.treeIndex` of a nullish entry). -/
def entryErrors (i : Nat) (entry : JsValue) : Except String (List String) := do
  let value ← getProp entry "value"
  if !value.truthy || !value.isArr then
    return ["Entry " ++ toString i ++ ": Missing or invalid value"]
  let arityE :=
    if !(value.elems.length == 3) then
      ["Entry " ++ toString i ++ ": Expected 3 fields (index, address, amount), got "
        ++ toString value.elems.length]
    else []
  let idxE :=
    if !(jsIndexD value 0).isNum then
      ["Entry " ++ toString i ++ ": Index should be a number"]
    else []
  let address := jsIndexD value 1
  let addrE :=
    if !addrRegexMatch (jsToString address) then
      ["Entry " ++ toString i ++ ": Invalid address format: " ++ jsToString address]
    else []
  let amount := jsIndexD value 2
  let amountE :=
    if !amount.isStr || !amountRegexMatch (jsToString amount) then
      ["Entry " ++ toString i ++ ": Amount should be numeric string, got: "
        ++ jsToString amount]
    else []
  let treeIndex ← getProp entry "treeIndex"
  let tiE :=
    if !treeIndex.isNum then
      ["Entry " ++ toString i ++ ": Missing or invalid treeIndex"]
    else []
  return arityE ++ idxE ++ addrE ++ amountE ++ tiE

/-- The per-entry loop over `values`, accumulating entry errors in order. -/
def entriesErrors : Nat → List JsValue → Except String (List String)
  | _, [] => .ok []
  | i, e :: rest => do
      let h ← entryErrors i e
      let t ← entriesErrors (i + 1) rest
      return h ++ t

/-- `treeData.values.map(v => v.value[0])`: throws on an entry whose
`value` property is nullish (exactly as the script does). -/
def mapIndices : List JsValue → Except String (List JsValue)
  | [] => .ok []
  | v :: rest => do
      let value ← getProp v "value"
      let idx ← jsIndex value 0
      let t ← mapIndices rest
      return idx :: t

/-- Whether the element at position `pos` is a non-first occurrence, per
`indices.indexOf(item) !== index` with strict equality.  For arrays and
objects `indexOf` compares references and finds the element itself at
`pos` (distinct parses are never reference-equal), so they are never
duplicates. -/
def isDupAt (indices : List JsValue) (pos : Nat) (item : JsValue) : Bool :=
  match item with
  | .arr _ => false
  | .obj _ => false
  | _ => !(indices.findIdx (fun x => jsStrictEq x item) == pos)

/-- The duplicate elements of `indices`, in document order. -/
def duplicatesOf (indices : List JsValue) : List JsValue :=
  (indices.enum.filter (fun p => isDupAt indices p.1 p.2)).map (fun p => p.2)

/-- Order-preserving deduplication (`[...new Set(duplicates)]`); the list
never contains arrays or objects, so `SameValueZero` coincides with
`jsStrictEq` here. -/
def dedupJs (seen : List JsValue) : List JsValue → List JsValue
  | [] => []
  | x :: rest =>
      if seen.any (fun y => jsStrictEq y x) then dedupJs seen rest
      else x :: dedupJs (seen ++ [x]) rest

/-- The duplicate-index check of `validate-merkle.js`. -/
def dupErrors (vs : List JsValue) : Except String (List String) := do
  let indices ← mapIndices vs
  let duplicates := duplicatesOf indices
  if duplicates.isEmpty then return []
  return ["Duplicate indices found: "
    ++ String.intercalate ", " ((dedupJs [] duplicates).map jsToString)]

/-- The `leafEncoding` structural check of `validate-merkle.js` (no early
return, unlike the `values` and `tree` checks). -/
def leafEncodingErrors (leafEncoding : JsValue) : List String :=
  if !leafEncoding.truthy || !leafEncoding.isArr then
    ["Missing or invalid leafEncoding"]
  else []

/-- Root resolution
(`treeData.format === "standard-v1" && treeData.tree?.[0] ? treeData.tree[0] : treeData.root`,
with the string literal written with quotes here). -/
def resolveRoot (format tree rootField : JsValue) : JsValue :=
  if jsStrictEq format (.str "standard-v1") && (jsIndexD tree 0).truthy then
    jsIndexD tree 0
  else rootField

/-- The root cross-check of `validate-merkle.js`
(`if (expectedRoot && actualRoot !== expectedRoot)`). -/
def rootMismatchErrors (actualRoot expectedRoot : JsValue) : List String :=
  if expectedRoot.truthy && !jsStrictEq actualRoot expectedRoot then
    ["Merkle root mismatch: " ++ jsToString actualRoot ++ " vs expected "
      ++ jsToString expectedRoot]
  else []

/-- The tree-length floor check of `validate-merkle.js`. -/
def treeLengthErrors (treeLen valueCount : Nat) : List String :=
  if treeLen < minTreeLength valueCount then
    ["Tree array too short: " ++ toString treeLen ++ " (expected at least "
      ++ toString (minTreeLength valueCount) ++ ")"]
  else []

/-- `validateMerkleTree(treeData, expectedRoot)` from
`validate-merkle.js`.  Returns the accumulated error list, or the message
of the `TypeError` the script would throw (a thrown error discards the
accumulated list, which is what the caller observes). -/
def validateMerkleTree (treeData expectedRoot : JsValue) : Except String (List String) := do
  let values ← getProp treeData "values"
  if !values.truthy || !values.isArr then
    return ["Missing or invalid values array"]
  let tree ← getProp treeData "tree"
  if !tree.truthy || !tree.isArr then
    return ["Missing or invalid tree array"]
  let leafEncoding ← getProp treeData "leafEncoding"
  let structE := leafEncodingErrors leafEncoding
  let format ← getProp treeData "format"
  let rootField ← getProp treeData "root"
  let rootE := rootMismatchErrors (resolveRoot format tree rootField) expectedRoot
  let entriesE ← entriesErrors 0 values.elems
  let dupE ← dupErrors values.elems
  let lenE := treeLengthErrors tree.elems.length values.elems.length
  return structE ++ rootE ++ entriesE ++ dupE ++ lenE

/-- `loadMerkleTree`: wraps a read/parse failure message. -/
def loadMerkleTree (parseResult : Except String JsValue) : Except String JsValue :=
  match parseResult with
  | .ok v => .ok v
  | .error m => .error ("Failed to load merkle tree: " ++ m)

/-- The per-file body of `main` in `validate-merkle.js`: load the tree
document; if a sibling `distribution.json` exists (`distFile = some r`),
parse it (a parse failure propagates to the per-file catch) and take its
`merkleRoot` as the expected root, otherwise leave the expected root
`null`; then run `validateMerkleTree`.  An `.error` result is what the
per-file `catch` reports, marking the file as failing. -/
def processMerkleFile (treeParse : Except String JsValue)
    (distFile : Option (Except String JsValue)) : Except String (List String) := do
  let treeData ← loadMerkleTree treeParse
  let expectedRoot ←
    match distFile with
    | none => pure JsValue.null
    | some r => do
        let distData ← r
        getProp distData "merkleRoot"
  validateMerkleTree treeData expectedRoot

/-! ## Keccak-256 and the ethers address predicate

`validate-distributions.js` validates addresses with `ethers.isAddress`
(ethers v6).  `isAddress` succeeds exactly when `getAddress` does: the
input must match `^(0x)?[0-9a-fA-F]{40}$` — in which case a string mixing
upper-case and lower-case hex letters must additionally carry a correct
EIP-55 checksum (computed from the Keccak-256 hash of the lower-cased hex
body) — or be an ICAP string `^XE[0-9]{2}[0-9A-Za-z]{30,31}$` with a
correct IBAN mod-97 checksum and a base-36 value below `2^160`.  The
Keccak-f[1600] permutation is embedded below over `Nat` with explicit
`% 2^64` masking of the 64-bit lanes. -/

/-- One step of the degree-8 LFSR (`x^8 + x^6 + x^5 + x^4 + 1`) that
generates the Keccak round-constant bits: returns the output bit (the
low bit of the state) and the next state. -/
def keccakLfsr (r : Nat) : Bool × Nat :=
  (r &&& 1 == 1,
   if r &&& 0x80 == 0x80 then ((r <<< 1) ^^^ 0x71) &&& 0xFF else (r <<< 1) &&& 0xFF)

/-- The round constant drawn from LFSR state `r`: seven LFSR output bits
placed at bit positions `2^j - 1`; returns the constant and the advanced
LFSR state. -/
def keccakRCStep (r : Nat) : Nat × Nat :=
  (List.range 7).foldl
    (fun acc j =>
      let (b, r2) := keccakLfsr acc.2
      (if b then acc.1 ^^^ (1 <<< ((1 <<< j) - 1)) else acc.1, r2))
    (0, r)

/-- The 24 round constants of Keccak-f[1600], generated from the
standard LFSR with initial state 1. -/
def keccakRC : List Nat :=
  ((List.range 24).foldl
    (fun acc _ =>
      let (rc, r2) := keccakRCStep acc.2
      (acc.1 ++ [rc], r2))
    (([] : List Nat), 1)).1

/-- The rotation offsets of the rho step, indexed by lane `x + 5*y`:
lane `(1, 0)` and its successors under `(x, y) ↦ (y, 2x + 3y mod 5)`
receive the offsets `(t+1)(t+2)/2 mod 64` for `t = 0, …, 23`, and lane
`(0, 0)` keeps offset 0. -/
def keccakRho : List Nat :=
  ((List.range 24).foldl
    (fun acc t =>
      let l := acc.1
      let x := acc.2.1
      let y := acc.2.2
      (l.set (x + 5 * y) ((((t + 1) * (t + 2)) / 2) % 64), y, (2 * x + 3 * y) % 5))
    (List.replicate 25 0, 1, 0)).1

/-- Left rotation of a 64-bit lane (operand below `2^64`). -/
def rotl64 (x n : Nat) : Nat := ((x <<< n) % 2 ^ 64) ||| (x >>> (64 - n))

/-- Lane read with default 0. -/
def lget (s : List Nat) (i : Nat) : Nat := s.getD i 0

/-- The theta step. -/
def keccakTheta (s : List Nat) : List Nat :=
  let c := (List.range 5).map (fun x =>
    lget s x ^^^ lget s (x + 5) ^^^ lget s (x + 10) ^^^ lget s (x + 15) ^^^ lget s (x + 20))
  let d := (List.range 5).map (fun x =>
    lget c ((x + 4) % 5) ^^^ rotl64 (lget c ((x + 1) % 5)) 1)
  (List.range 25).map (fun i => lget s i ^^^ lget d (i % 5))

/-- The combined rho and pi steps: lane `(x, y)` of the result is lane
`((x + 3*y) % 5, x)` of the input rotated by its rho offset. -/
def keccakRhoPi (s : List Nat) : List Nat :=
  (List.range 25).map (fun i =>
    let x := i % 5
    let y := i / 5
    let src := (x + 3 * y) % 5 + 5 * x
    rotl64 (lget s src) (lget keccakRho src))

/-- The chi step (complement via XOR with the 64-bit mask). -/
def keccakChi (s : List Nat) : List Nat :=
  (List.range 25).map (fun i =>
    let x := i % 5
    let y := i / 5
    lget s i ^^^ ((lget s ((x + 1) % 5 + 5 * y) ^^^ (2 ^ 64 - 1)) &&& lget s ((x + 2) % 5 + 5 * y)))

/-- The iota step. -/
def keccakIota (rc : Nat) : List Nat → List Nat
  | [] => []
  | a :: rest => (a ^^^ rc) :: rest

/-- The full Keccak-f[1600] permutation (24 rounds). -/
def keccakF (s : List Nat) : List Nat :=
  keccakRC.foldl (fun st rc => keccakIota rc (keccakChi (keccakRhoPi (keccakTheta st)))) s

/-- Split a byte list into 8-byte groups (input length a multiple of 8). -/
def chunk8 : List Nat → List (List Nat)
  | b0 :: b1 :: b2 :: b3 :: b4 :: b5 :: b6 :: b7 :: rest =>
      [b0, b1, b2, b3, b4, b5, b6, b7] :: chunk8 rest
  | [] => []
  | rest => [rest]

/-- A little-endian 8-byte group as a 64-bit lane. -/
def laneOfBytes (bs : List Nat) : Nat := bs.foldr (fun b acc => b + 256 * acc) 0

/-- The 8 little-endian bytes of a 64-bit lane. -/
def laneBytes (x : Nat) : List Nat := (List.range 8).map (fun i => (x >>> (8 * i)) % 256)

/-- Keccak-256 of a message of fewer than 136 bytes (a single-rate block,
which covers the 40-byte payloads hashed for EIP-55 checksums): pad10*1
padding with domain byte `0x01`, one permutation, 32 bytes squeezed. -/
def keccak256 (msg : List Nat) : List Nat :=
  let padded :=
    if msg.length == 135 then msg ++ [0x81]
    else msg ++ 0x01 :: List.replicate (134 - msg.length) 0 ++ [0x80]
  let state := keccakF ((chunk8 padded).map laneOfBytes ++ List.replicate 8 0)
  ((state.take 4).map laneBytes).flatten

/-- Lower-case a string character-wise. -/
def toLowerStr (s : String) : String := String.mk (s.data.map Char.toLower)

/-- ethers v6 `getChecksumAddress`: lower-case the 40-hex-character body,
hash its ASCII bytes with Keccak-256, and upper-case each hex character
whose corresponding hash nibble is at least 8. -/
def checksummedAddress (addr : String) : String :=
  let chars := (toLowerStr addr).data.drop 2
  let hashed := keccak256 (chars.map Char.toNat)
  let upd := chars.enum.map (fun p =>
    let nib := if p.1 % 2 == 0 then lget hashed (p.1 / 2) >>> 4 else lget hashed (p.1 / 2) % 16
    if 8 ≤ nib then p.2.toUpper else p.2)
  "0x" ++ String.mk upd

/-- An upper-case hex letter `[A-F]` occurs in the string. -/
def hasUpperHexLetter (s : String) : Bool := s.data.any (fun c => 'A' ≤ c && c ≤ 'F')

/-- A lower-case hex letter `[a-f]` occurs in the string. -/
def hasLowerHexLetter (s : String) : Bool := s.data.any (fun c => 'a' ≤ c && c ≤ 'f')

/-- ethers v6 mixed-case test `/([A-F].*[a-f])|([a-f].*[A-F])/`: both an
upper-case and a lower-case hex letter occur (in either order). -/
def hasMixedCaseHex (s : String) : Bool := hasUpperHexLetter s && hasLowerHexLetter s

/-- The ethers `getAddress` entry regex `^(0x)?[0-9a-fA-F]{40}$`: 40 hex
digits with an optional `0x` prefix.  (A string starting with `0x` can
only match through the prefixed alternative, since `x` is not a hex
digit.) -/
def ethersHex40 (s : String) : Bool :=
  if startsWith0x s then (s.data.length == 42) && (s.data.drop 2).all isHexDigitChar
  else (s.data.length == 40) && s.data.all isHexDigitChar

/-- The ICAP shape `^XE[0-9]{2}[0-9A-Za-z]{30,31}$`. -/
def icapFormat (s : String) : Bool :=
  (s.data.length == 34 || s.data.length == 35)
    && List.isPrefixOf ['X', 'E'] s.data
    && ((s.data.drop 2).take 2).all isDigitChar
    && (s.data.drop 4).all (fun c => c.isAlphanum)

/-- IBAN digit expansion value of an upper-case alphanumeric character. -/
def ibanVal (c : Char) : Nat := if isDigitChar c then c.toNat - 48 else c.toNat - 55

/-- Append one character of the IBAN expansion to a running decimal
value (letters expand to two decimal digits). -/
def ibanStep (acc : Nat) (c : Char) : Nat :=
  if isDigitChar c then acc * 10 + ibanVal c else acc * 100 + ibanVal c

/-- ethers `ibanChecksum`: move the first four characters to the end,
append `00`, expand letters to decimal, and return `98 - (value mod 97)`
as a two-digit string.  (The chunked `parseInt` loop of the source
computes exactly this remainder.) -/
def ibanChecksumStr (s : String) : String :=
  let up := s.data.map Char.toUpper
  let rearranged := up.drop 4 ++ up.take 2 ++ ['0', '0']
  let n := rearranged.foldl ibanStep 0
  let c := 98 - n % 97
  if c < 10 then "0" ++ toString c else toString c

/-- Base-36 value of the ICAP payload (case-insensitive). -/
def fromBase36 (cs : List Char) : Nat :=
  cs.foldl (fun acc c =>
    acc * 36 + (if isDigitChar c then c.toNat - 48 else (Char.toLower c).toNat - 87)) 0

/-- Acceptance of an ICAP-shaped string by ethers `getAddress`: the IBAN
checksum digits must match, and the base-36 value must fit in 160 bits
(otherwise the padded hex exceeds 40 digits and the inner `getAddress`
call rejects it). -/
def icapAccepted (s : String) : Bool :=
  (String.mk ((s.data.drop 2).take 2) == ibanChecksumStr s)
    && fromBase36 (s.data.drop 4) < 2 ^ 160

/-- ethers v6 `isAddress` on a string: `getAddress` succeeds.  For a
`(0x)?hex40` string, acceptance requires a matching EIP-55 checksum only
when the string mixes letter cases; otherwise the string is accepted
outright.  ICAP strings are accepted per `icapAccepted`.  Everything
else is rejected. -/
def ethersIsAddress (s : String) : Bool :=
  if ethersHex40 s then
    let addr := if startsWith0x s then s else "0x" ++ s
    if hasMixedCaseHex addr then decide (addr = checksummedAddress addr) else true
  else if icapFormat s then icapAccepted s
  else false

/-! ## The distribution validator (`validate-distributions.js`) -/

/-- `SUPPORTED_CHAINS` from `validate-distributions.js`. -/
def SUPPORTED_CHAINS : List (String × Int) :=
  [("ethereum", 1), ("classic", 61), ("base", 8453), ("optimism", 10),
   ("arbitrum", 42161), ("polygon", 137), ("bsc", 56), ("avalanche", 43114)]

/-- `REQUIRED_FIELDS` from `validate-distributions.js`. -/
def REQUIRED_FIELDS : List String :=
  ["chainId", "chainName", "name", "description", "token", "distributor",
   "registry", "merkleRoot", "createdAt", "totalRecipients", "totalAmount", "createdBy"]

/-- `TOKEN_REQUIRED_FIELDS` from `validate-distributions.js`. -/
def TOKEN_REQUIRED_FIELDS : List String := ["address", "name", "symbol", "decimals", "type"]

/-- First-match lookup in the chain table. -/
def lookupChain : List (String × Int) → String → Option Int
  | [], _ => none
  | p :: rest, k => if p.1 = k then some p.2 else lookupChain rest k

/-- `SUPPORTED_CHAINS[v]`: a string key found in the table yields its
number, any other subscript yields `undefined`.  (In JavaScript a
subscript naming an `Object.prototype` member, such as `toString`, would
find the inherited function; no chain name collides with those, and the
embedding models the table's own keys only.) -/
def chainLookupVal (v : JsValue) : JsValue :=
  match v with
  | .str s => ((lookupChain SUPPORTED_CHAINS s).map JsValue.num).getD .undef
  | _ => JsValue.undef

/-- `isValidAddress` from `validate-distributions.js`: `ethers.isAddress`
(whose `getAddress` asserts a string argument, so every non-string is
rejected) under a try/catch. -/
def isValidAddress : JsValue → Bool
  | .str s => ethersIsAddress s
  | _ => false

/-- `isValidBytes32` from `validate-distributions.js`:
`typeof value === "string" && /^0x[a-fA-F0-9]{64}$/.test(value)`. -/
def isValidBytes32 : JsValue → Bool
  | .str s => startsWith0x s && (s.data.length == 66) && (s.data.drop 2).all isHexDigitChar
  | _ => false

/-- The required-field loop: `Missing required field: <f>` for each absent
field, in list order; the `in` operator throws on the first iteration
when `data` is not an object, with nothing yet accumulated. -/
def requiredLoop (data : JsValue) : List String → Except String (List String)
  | [] => .ok []
  | f :: rest => do
      let present ← jsHasFieldE data f
      let t ← requiredLoop data rest
      if present then return t
      return ("Missing required field: " ++ f) :: t

/-- The unsupported-chain check
(`if (data.chainName && !SUPPORTED_CHAINS[data.chainName])`). -/
def unsupportedChainErrors (data : JsValue) : List String :=
  let cn := propValue data "chainName"
  if cn.truthy && !(chainLookupVal cn).truthy then
    ["Unsupported chain: " ++ jsToString cn]
  else []

/-- The chain-id consistency check: both fields truthy, table id truthy
and strictly different from `chainId`. -/
def chainMismatchErrors (data : JsValue) : List String :=
  let cid := propValue data "chainId"
  let cn := propValue data "chainName"
  if cid.truthy && cn.truthy then
    let expected := chainLookupVal cn
    if expected.truthy && !jsStrictEq expected cid then
      ["Chain ID mismatch: " ++ jsToString cid ++ " vs expected " ++ jsToString expected]
    else []
  else []

/-- The address fields checked by the validator: the three top-level
fields, plus `token.address` when `data.token` and `data.token.address`
are truthy. -/
def addressFieldList (data : JsValue) : List (String × JsValue) :=
  let base :=
    [("distributor", propValue data "distributor"),
     ("registry", propValue data "registry"),
     ("createdBy", propValue data "createdBy")]
  if (propValue data "token").truthy && (propValue (propValue data "token") "address").truthy then
    base ++ [("token.address", propValue (propValue data "token") "address")]
  else base

/-- The address-format loop: a truthy value failing `isValidAddress`
yields `Invalid address in <field>: <value>`. -/
def addressErrors (data : JsValue) : List String :=
  (addressFieldList data).foldr (fun p acc =>
    (if p.2.truthy && !isValidAddress p.2 then
      ["Invalid address in " ++ p.1 ++ ": " ++ jsToString p.2]
    else []) ++ acc) []

/-- The token-field loop (`field in data.token`, throwing when `token` is
a truthy primitive). -/
def tokenLoop (token : JsValue) : List String → Except String (List String)
  | [] => .ok []
  | f :: rest => do
      let present ← jsHasFieldE token f
      let t ← tokenLoop token rest
      if present then return t
      return ("Missing required token field: " ++ f) :: t

/-- The token block: required token fields, then the token-type
enumeration check (`[NATIVE, ERC20, ERC223].includes(...)`). -/
def tokenErrors (data : JsValue) : Except String (List String) := do
  let token := propValue data "token"
  if !token.truthy then return []
  let missing ← tokenLoop token TOKEN_REQUIRED_FIELDS
  let ty := propValue token "type"
  let typeE :=
    if ty.truthy
        && !(["NATIVE", "ERC20", "ERC223"].any (fun s => jsStrictEq (.str s) ty)) then
      ["Invalid token type: " ++ jsToString ty]
    else []
  return missing ++ typeE

/-- The merkle-root format check
(`if (data.merkleRoot && !isValidBytes32(data.merkleRoot))`). -/
def merkleRootErrors (data : JsValue) : List String :=
  let mr := propValue data "merkleRoot"
  if mr.truthy && !isValidBytes32 mr then
    ["Invalid merkleRoot format: " ++ jsToString mr]
  else []

/-- `Number(v)` for JSON-derived values, `none` denoting `NaN`.  String
conversion covers the decimal integer forms expressible in the `Int`
number model (fractional and exponent literals fall outside it); arrays
and objects convert through their string rendering, as `ToPrimitive`
does. -/
def jsToNumber : JsValue → Option Int
  | .num n => some n
  | .bool b => some (cond b 1 0)
  | .null => some 0
  | .undef => none
  | .str s => strToNumber s
  | .arr xs => strToNumber (jsToString (.arr xs))
  | .obj _ => none
where
  /-- Decimal integer reading of a trimmed string; empty means 0. -/
  strToNumber (s : String) : Option Int :=
    let t := s.data.filter (fun c => !(c == ' ' || c == '\t' || c == '\n' || c == '\r'))
    if s.data.all (fun c => c == ' ' || c == '\t' || c == '\n' || c == '\r') then some 0
    else
      match t with
      | '-' :: ds => if ds ≠ [] && ds.all isDigitChar then some (-(ofDigits ds : Int)) else none
      | '+' :: ds => if ds ≠ [] && ds.all isDigitChar then some (ofDigits ds) else none
      | ds => if ds.all isDigitChar then some (ofDigits ds) else none
  ofDigits (ds : List Char) : Nat := ds.foldl (fun acc c => acc * 10 + (c.toNat - 48)) 0

/-- The `totalRecipients` check
(`data.totalRecipients && (isNaN(...) || ... < 0)`); a relational
comparison with a `NaN` operand is false. -/
def totalRecipientsErrors (data : JsValue) : List String :=
  let tr := propValue data "totalRecipients"
  let bad :=
    match jsToNumber tr with
    | none => true
    | some n => decide (n < 0)
  if tr.truthy && bad then
    ["Invalid totalRecipients: " ++ jsToString tr]
  else []

/-- The try-block body of `validateDistributionFile` after a successful
parse.  A thrown `TypeError` (from an `in` probe) carries the errors
already accumulated, since the catch handler pushes onto the same
array. -/
def distBodyChecks (data : JsValue) : Except (List String × String) (List String) :=
  match requiredLoop data REQUIRED_FIELDS with
  | .error m => .error ([], m)
  | .ok req =>
      let chainU := unsupportedChainErrors data
      let chainM := chainMismatchErrors data
      let addr := addressErrors data
      match tokenErrors data with
      | .error m => .error (req ++ chainU ++ chainM ++ addr, m)
      | .ok tok =>
          .ok (req ++ chainU ++ chainM ++ addr ++ tok
            ++ merkleRootErrors data ++ totalRecipientsErrors data)

/-- `validateDistributionFile` from `validate-distributions.js`, as a
function of the read-and-parse outcome of the file content.  Every
throw inside the try block (parse failure, `in` on a primitive) reaches
the same catch, which appends `Failed to parse JSON: <message>` to the
errors accumulated so far; consequently the function is total and never
raises. -/
def validateDistributionFile (parsed : Except String JsValue) : List String :=
  match parsed with
  | .error m => ["Failed to parse JSON: " ++ m]
  | .ok data =>
      match distBodyChecks data with
      | .ok errs => errs
      | .error (soFar, m) => soFar ++ ["Failed to parse JSON: " ++ m]

/-- A well-formed standard-shape entry with leaf index `i`. -/
def exampleEntry (i : Int) : JsValue :=
  .obj [("value", .arr [.num i, .str "0xaaaaaaaaaaaaaaaaaaaaaaaaaaaaaaaaaaaaaaaa", .str "1"]),
        ("treeIndex", .num i)]

/-- Five well-formed entries with distinct leaf indices. -/
def exampleValues5 : List JsValue :=
  [exampleEntry 0, exampleEntry 1, exampleEntry 2, exampleEntry 3, exampleEntry 4]

/-- A five-element tree array (one short of the floor for five values). -/
def exampleTree5 : List JsValue :=
  [.str "0xa1", .str "0xa2", .str "0xa3", .str "0xa4", .str "0xa5"]

/-- A six-element tree array (meeting the floor for five values). -/
def exampleTree6 : List JsValue :=
  [.str "0xa1", .str "0xa2", .str "0xa3", .str "0xa4", .str "0xa5", .str "0xa6"]

/-- The fields of a standard-shape document with five values and a
five-element tree. -/
def exampleDoc5Fields : List (String × JsValue) :=
  [("values", .arr exampleValues5), ("tree", .arr exampleTree5),
   ("leafEncoding", .arr [.str "uint256"])]

/-- The fields of the same document with a six-element tree. -/
def exampleDoc6Fields : List (String × JsValue) :=
  [("values", .arr exampleValues5), ("tree", .arr exampleTree6),
   ("leafEncoding", .arr [.str "uint256"])]

/-! ## General helper lemmas -/

theorem data_append (a b : String) : (a ++ b).data = a.data ++ b.data := by
  cases a
  cases b
  rfl

theorem headChar_append {a : String} (b : String) {c : Char}
    (h : a.data.head? = some c) : (a ++ b).data.head? = some c := by
  rw [data_append]
  cases ha : a.data with
  | nil => rw [ha] at h; simp at h
  | cons x xs =>
      rw [ha] at h
      simp at h
      simp [h]

theorem ne_of_headChar {a b : String} {c d : Char}
    (ha : a.data.head? = some c) (hb : b.data.head? = some d) (h : c ≠ d) : a ≠ b := by
  intro hab
  rw [hab, hb] at ha
  exact h (Option.some_injective _ ha).symm

theorem except_bind_ok {ε α β : Type} (a : α) (f : α → Except ε β) :
    (Except.ok a >>= f) = f a := rfl

theorem except_bind_error {ε α β : Type} (e : ε) (f : α → Except ε β) :
    ((Except.error e : Except ε α) >>= f) = Except.error e := rfl

theorem except_pure_eq {ε α : Type} (a : α) : (pure a : Except ε α) = .ok a := rfl

theorem mem_ite_singleton {c : Prop} [Decidable c] {a s : String}
    (h : s ∈ (if c then [a] else [])) : s = a ∧ c := by
  by_cases hc : c
  · rw [if_pos hc] at h
    exact ⟨by simpa using h, hc⟩
  · rw [if_neg hc] at h
    simp at h

theorem headChar_ne_elim {t : String} {c d : Char}
    (h1 : t.data.head? = some c) (h2 : t.data.head? = some d) (hne : c ≠ d) : False := by
  rw [h1] at h2
  exact hne (Option.some_injective _ h2)

theorem getProp_obj (fs : List (String × JsValue)) (k : String) :
    getProp (.obj fs) k = .ok (propValue (.obj fs) k) := rfl

/-! ## Claim C1 -/

/-- C1 counterexample: a document with a `leaves` array (Simple shape per
the claim) and no `values` array is rejected by `validateMerkleTree`
with `Missing or invalid values array`, contradicting the claim that
such a document is validated under Simple-shape rules and not rejected
for lacking `values`. -/
theorem C1_counterexample :
    (propValue (.obj [("root", .str "0xaa"),
        ("leaves", .arr [.obj [("leafIndex", .num 0),
          ("address", .str "0xaaaaaaaaaaaaaaaaaaaaaaaaaaaaaaaaaaaaaaaa"),
          ("amount", .str "5")]])]) "leaves").isArr = true
    ∧ validateMerkleTree (.obj [("root", .str "0xaa"),
        ("leaves", .arr [.obj [("leafIndex", .num 0),
          ("address", .str "0xaaaaaaaaaaaaaaaaaaaaaaaaaaaaaaaaaaaaaaaa"),
          ("amount", .str "5")]])]) .null
      = .ok ["Missing or invalid values array"] :=
  ⟨rfl, rfl⟩

/-- C1 (amended): the validator has no Simple-shape path.  A document
containing a `leaves` array but whose `values` field is not an array is
rejected with exactly `Missing or invalid values array`, for any
expected root. -/
theorem C1_leaves_gets_no_simple_shape (fs : List (String × JsValue)) (e : JsValue)
    (_hleaves : (propValue (.obj fs) "leaves").isArr = true)
    (hvalues : (propValue (.obj fs) "values").isArr = false) :
    validateMerkleTree (.obj fs) e = .ok ["Missing or invalid values array"] := by
  unfold validateMerkleTree
  rw [getProp_obj, except_bind_ok]
  simp [hvalues, pure, Except.pure]

/-- Witness for C1: the amended theorem applied to a concrete document. -/
theorem C1_leaves_gets_no_simple_shape_witness :
    (propValue (.obj [("leaves", .arr []), ("root", .str "0xbb")]) "leaves").isArr = true
    ∧ (propValue (.obj [("leaves", .arr []), ("root", .str "0xbb")]) "values").isArr = false
    ∧ validateMerkleTree (.obj [("leaves", .arr []), ("root", .str "0xbb")]) .null
        = .ok ["Missing or invalid values array"] :=
  ⟨rfl, rfl, C1_leaves_gets_no_simple_shape _ _ rfl rfl⟩

/-! ## Claim C3 -/

/-- C3: evaluating the embedded `validateMerkleTree` at a document whose
single entry lacks a `value` field.  The per-entry loop records
`Entry 0: Missing or invalid value` and continues, but the
duplicate-index map `treeData.values.map(v => v.value[0])` then reads
property `0` of `undefined` and throws, so the function raises instead
of returning the accumulated error list. -/
theorem C3_throws_on_entry_without_value :
    validateMerkleTree (.obj [("values", .arr [.obj []]), ("tree", .arr [])]) .null
      = .error "Cannot read properties of undefined (reading \x270\x27)" := rfl

/-! ## Claim C4 -/

/-- C4 counterexample: a tree document that validates cleanly on its own
is nevertheless reported as failing (the per-file handler receives the
thrown parse error) when the sibling `distribution.json` exists but is
unparsable — the validator is never invoked with an absent root in that
case, contradicting the claim. -/
theorem C4_counterexample :
    validateMerkleTree (.obj [("values", .arr []), ("tree", .arr [.str "0xaa"]),
        ("leafEncoding", .arr [])]) .null = .ok []
    ∧ processMerkleFile
        (.ok (.obj [("values", .arr []), ("tree", .arr [.str "0xaa"]),
          ("leafEncoding", .arr [])]))
        (some (.error "Unexpected end of JSON input"))
      = .error "Unexpected end of JSON input" :=
  ⟨rfl, rfl⟩

/-- C4 (amended): when the sibling `distribution.json` is missing, the
validator runs with a `null` expected root, and a `null` expected root
contributes no root-mismatch error; when the sibling exists but fails to
parse, the parse error propagates to the per-file handler and the
validator is not invoked, so the file is reported as failing. -/
theorem C4_sibling_missing_vs_unparsable :
    (∀ d : JsValue, processMerkleFile (.ok d) none = validateMerkleTree d .null)
    ∧ (∀ a : JsValue, rootMismatchErrors a .null = [])
    ∧ (∀ (d : JsValue) (m : String),
        processMerkleFile (.ok d) (some (.error m)) = .error m) := by
  refine ⟨fun d => rfl, fun a => ?_, fun d m => rfl⟩
  simp [rootMismatchErrors, JsValue.truthy]

/-! ## Claim C9 -/

/-- C9: on a read/parse failure, `validateDistributionFile` returns
exactly one error entry of the form `Failed to parse JSON: <message>`
and reports no other check; the embedding is a total function into a
plain error list (the try/catch is part of the model), so no input
raises. -/
theorem C9_parse_failure_single_entry (m : String) :
    validateDistributionFile (.error m) = ["Failed to parse JSON: " ++ m] := rfl

/-! ## Claim C10 -/

/-- C10: a parsed top-level value that is neither an object nor an array
makes the first `field in data` probe throw a `TypeError`, which the
catch handler that also serves parse failures converts into a single
`Failed to parse JSON: …` entry; no missing-field errors are
reported. -/
theorem C10_primitive_top_level (v : JsValue)
    (ho : v.isObj = false) (ha : v.isArr = false) :
    validateDistributionFile (.ok v)
      = ["Failed to parse JSON: "
          ++ ("Cannot use \x27in\x27 operator to search for \x27chainId\x27 in "
            ++ jsToString v)] := by
  cases v with
  | obj fs => simp [JsValue.isObj] at ho
  | arr xs => simp [JsValue.isArr] at ha
  | undef => rfl
  | null => rfl
  | bool b => rfl
  | num n => rfl
  | str s => rfl

/-- Witness for C10 at the number 5. -/
theorem C10_primitive_top_level_witness :
    (JsValue.num 5).isObj = false ∧ (JsValue.num 5).isArr = false
    ∧ validateDistributionFile (.ok (.num 5))
      = ["Failed to parse JSON: "
          ++ ("Cannot use \x27in\x27 operator to search for \x27chainId\x27 in "
            ++ jsToString (.num 5))] :=
  ⟨rfl, rfl, C10_primitive_top_level (.num 5) rfl rfl⟩

/-! ## Segment lemmas for the merkle validator -/

theorem leafEncodingErrors_head (v : JsValue) :
    ∀ s ∈ leafEncodingErrors v, s.data.head? = some 'M' := by
  intro s hs
  unfold leafEncodingErrors at hs
  obtain ⟨rfl, -⟩ := mem_ite_singleton hs
  rfl

theorem rootMismatchErrors_head (a e : JsValue) :
    ∀ s ∈ rootMismatchErrors a e, s.data.head? = some 'M' := by
  intro s hs
  unfold rootMismatchErrors at hs
  obtain ⟨rfl, -⟩ := mem_ite_singleton hs
  rfl

theorem treeLengthErrors_head (t n : Nat) :
    ∀ s ∈ treeLengthErrors t n, s.data.head? = some 'T' := by
  intro s hs
  unfold treeLengthErrors at hs
  obtain ⟨rfl, -⟩ := mem_ite_singleton hs
  rfl

theorem entryErrors_head (i : Nat) (e : JsValue) (l : List String)
    (h : entryErrors i e = .ok l) : ∀ s ∈ l, s.data.head? = some 'E' := by
  unfold entryErrors at h
  cases hv : getProp e "value" with
  | error m => rw [hv, except_bind_error] at h; cases h
  | ok value =>
      rw [hv, except_bind_ok] at h
      by_cases hc : (!value.truthy || !value.isArr) = true
      · rw [if_pos hc, except_pure_eq] at h
        simp only [Except.ok.injEq] at h
        subst h
        intro s hs
        simp only [List.mem_singleton] at hs
        subst hs
        rfl
      · rw [if_neg hc] at h
        cases ht : getProp e "treeIndex" with
        | error m => rw [ht, except_bind_error] at h; cases h
        | ok ti =>
            rw [ht, except_bind_ok] at h
            simp only [except_bind_ok, except_pure_eq, Except.ok.injEq] at h
            subst h
            intro s hs
            simp only [List.mem_append] at hs
            rcases hs with ((((h1 | h2) | h3) | h4) | h5)
            · obtain ⟨rfl, -⟩ := mem_ite_singleton h1; rfl
            · obtain ⟨rfl, -⟩ := mem_ite_singleton h2; rfl
            · obtain ⟨rfl, -⟩ := mem_ite_singleton h3; rfl
            · obtain ⟨rfl, -⟩ := mem_ite_singleton h4; rfl
            · obtain ⟨rfl, -⟩ := mem_ite_singleton h5; rfl

theorem entriesErrors_head (vs : List JsValue) (i : Nat) (l : List String)
    (h : entriesErrors i vs = .ok l) : ∀ s ∈ l, s.data.head? = some 'E' := by
  induction vs generalizing i l with
  | nil =>
      simp only [entriesErrors, Except.ok.injEq] at h
      subst h
      simp
  | cons e rest ih =>
      simp only [entriesErrors] at h
      cases he : entryErrors i e with
      | error m => rw [he, except_bind_error] at h; cases h
      | ok hd =>
          rw [he, except_bind_ok] at h
          cases hr : entriesErrors (i + 1) rest with
          | error m => rw [hr, except_bind_error] at h; cases h
          | ok tl =>
              rw [hr, except_bind_ok, except_pure_eq] at h
              simp only [Except.ok.injEq] at h
              subst h
              intro s hs
              rcases List.mem_append.mp hs with h1 | h2
              · exact entryErrors_head i e hd he s h1
              · exact ih (i + 1) tl hr s h2

theorem dupErrors_head (vs : List JsValue) (l : List String)
    (h : dupErrors vs = .ok l) : ∀ s ∈ l, s.data.head? = some 'D' := by
  unfold dupErrors at h
  cases hm : mapIndices vs with
  | error m => rw [hm, except_bind_error] at h; cases h
  | ok indices =>
      rw [hm, except_bind_ok] at h
      by_cases hd : (duplicatesOf indices).isEmpty = true
      · rw [if_pos hd] at h
        simp only [except_bind_ok, except_pure_eq, Except.ok.injEq] at h
        subst h
        simp
      · rw [if_neg hd] at h
        simp only [except_bind_ok, except_pure_eq, Except.ok.injEq] at h
        subst h
        intro s hs
        simp only [List.mem_singleton] at hs
        subst hs
        rfl

/-- Decomposition of a non-throwing run of `validateMerkleTree` on an
object document whose `values` and `tree` fields are arrays: the error
list is the concatenation of the five check segments, in source
order. -/
theorem validateMerkleTree_decomp (fs : List (String × JsValue)) (vs ts : List JsValue)
    (e : JsValue) (errs : List String)
    (hv : propValue (.obj fs) "values" = .arr vs)
    (ht : propValue (.obj fs) "tree" = .arr ts)
    (h : validateMerkleTree (.obj fs) e = .ok errs) :
    ∃ le ld, entriesErrors 0 vs = .ok le ∧ dupErrors vs = .ok ld ∧
      errs = leafEncodingErrors (propValue (.obj fs) "leafEncoding")
        ++ rootMismatchErrors
            (resolveRoot (propValue (.obj fs) "format") (.arr ts) (propValue (.obj fs) "root")) e
        ++ le ++ ld ++ treeLengthErrors ts.length vs.length := by
  unfold validateMerkleTree at h
  rw [getProp_obj, except_bind_ok, hv] at h
  rw [if_neg (by simp [JsValue.truthy, JsValue.isArr])] at h
  rw [getProp_obj, except_bind_ok, ht] at h
  rw [if_neg (by simp [JsValue.truthy, JsValue.isArr])] at h
  simp only [getProp_obj, except_bind_ok, except_pure_eq, JsValue.elems] at h
  cases hE : entriesErrors 0 vs with
  | error m => rw [hE, except_bind_error] at h; cases h
  | ok le =>
      rw [hE, except_bind_ok] at h
      cases hD : dupErrors vs with
      | error m => rw [hD, except_bind_error] at h; cases h
      | ok ld =>
          rw [hD, except_bind_ok] at h
          simp only [except_bind_ok, except_pure_eq, Except.ok.injEq] at h
          exact ⟨le, ld, rfl, rfl, h.symm⟩

/-! ## Claim C5 -/

/-- C5 counterexample: a document lacking all three of `values`, `tree`
and `leafEncoding` produces only the `values` error — the `tree` and
`leafEncoding` errors claimed to accompany it are absent, because the
`values` check returns early. -/
theorem C5_counterexample :
    validateMerkleTree (.obj []) .null = .ok ["Missing or invalid values array"]
    ∧ "Missing or invalid tree array" ∉ ["Missing or invalid values array"]
    ∧ "Missing or invalid leafEncoding" ∉ ["Missing or invalid values array"] :=
  ⟨rfl, by decide, by decide⟩

/-- C5 (amended): the structural checks report only the first failure
among `values` and `tree` — a non-array `values` yields exactly the
`values` error, a non-array `tree` (with `values` an array) yields
exactly the `tree` error — while a non-array `leafEncoding` error is
reported (without aborting) in any non-throwing run with both arrays
present. -/
theorem C5_structural_checks_short_circuit :
    (∀ (fs : List (String × JsValue)) (e : JsValue),
      (propValue (.obj fs) "values").isArr = false →
      validateMerkleTree (.obj fs) e = .ok ["Missing or invalid values array"])
    ∧ (∀ (fs : List (String × JsValue)) (vs : List JsValue) (e : JsValue),
      propValue (.obj fs) "values" = .arr vs →
      (propValue (.obj fs) "tree").isArr = false →
      validateMerkleTree (.obj fs) e = .ok ["Missing or invalid tree array"])
    ∧ (∀ (fs : List (String × JsValue)) (vs ts : List JsValue) (e : JsValue)
        (errs : List String),
      propValue (.obj fs) "values" = .arr vs →
      propValue (.obj fs) "tree" = .arr ts →
      (propValue (.obj fs) "leafEncoding").isArr = false →
      validateMerkleTree (.obj fs) e = .ok errs →
      "Missing or invalid leafEncoding" ∈ errs) := by
  refine ⟨fun fs e hvals => ?_, fun fs vs e hv htree => ?_, fun fs vs ts e errs hv ht hle h => ?_⟩
  · unfold validateMerkleTree
    rw [getProp_obj, except_bind_ok]
    simp [hvals, pure, Except.pure]
  · unfold validateMerkleTree
    rw [getProp_obj, except_bind_ok, hv]
    rw [if_neg (by simp [JsValue.truthy, JsValue.isArr])]
    rw [getProp_obj, except_bind_ok]
    simp [htree, pure, Except.pure, except_bind_ok]
  · obtain ⟨le, ld, -, -, rfl⟩ := validateMerkleTree_decomp fs vs ts e errs hv ht h
    have hseg : leafEncodingErrors (propValue (.obj fs) "leafEncoding")
        = ["Missing or invalid leafEncoding"] := by
      unfold leafEncodingErrors
      rw [if_pos]
      simp [hle]
    simp [hseg]

/-- Witness for C5: the three parts applied to concrete documents. -/
theorem C5_structural_checks_short_circuit_witness :
    ((propValue (.obj [("tree", .arr [])]) "values").isArr = false
      ∧ validateMerkleTree (.obj [("tree", .arr [])]) .null
          = .ok ["Missing or invalid values array"])
    ∧ (propValue (.obj [("values", .arr [])]) "values" = .arr []
      ∧ (propValue (.obj [("values", .arr [])]) "tree").isArr = false
      ∧ validateMerkleTree (.obj [("values", .arr [])]) .null
          = .ok ["Missing or invalid tree array"])
    ∧ (propValue (.obj [("values", .arr []), ("tree", .arr [.str "0xaa"])]) "values" = .arr []
      ∧ propValue (.obj [("values", .arr []), ("tree", .arr [.str "0xaa"])]) "tree"
          = .arr [.str "0xaa"]
      ∧ (propValue (.obj [("values", .arr []), ("tree", .arr [.str "0xaa"])]) "leafEncoding").isArr
          = false
      ∧ validateMerkleTree (.obj [("values", .arr []), ("tree", .arr [.str "0xaa"])]) .null
          = .ok ["Missing or invalid leafEncoding"]
      ∧ "Missing or invalid leafEncoding" ∈ ["Missing or invalid leafEncoding"]) :=
  ⟨⟨rfl, C5_structural_checks_short_circuit.1 [("tree", .arr [])] .null rfl⟩,
   ⟨rfl, rfl,
    C5_structural_checks_short_circuit.2.1 [("values", .arr [])] [] .null rfl rfl⟩,
   ⟨rfl, rfl, rfl, rfl,
    C5_structural_checks_short_circuit.2.2 [("values", .arr []), ("tree", .arr [.str "0xaa"])]
      [] [.str "0xaa"] .null ["Missing or invalid leafEncoding"] rfl rfl rfl rfl⟩⟩

/-! ## Claim C8 -/

/-- C8: in any non-throwing run on a document whose `values` field is an
array of length `n` and whose `tree` field is an array of length `t`,
the tree-too-short error is emitted exactly when
`t < max(1, ceil(log2 n) * 2)`. -/
theorem C8_tree_length_floor (fs : List (String × JsValue)) (vs ts : List JsValue)
    (e : JsValue) (errs : List String)
    (hv : propValue (.obj fs) "values" = .arr vs)
    (ht : propValue (.obj fs) "tree" = .arr ts)
    (h : validateMerkleTree (.obj fs) e = .ok errs) :
    (("Tree array too short: " ++ toString ts.length ++ " (expected at least "
        ++ toString (minTreeLength vs.length) ++ ")") ∈ errs)
      ↔ ts.length < minTreeLength vs.length := by
  obtain ⟨le, ld, hE, hD, rfl⟩ := validateMerkleTree_decomp fs vs ts e errs hv ht h
  constructor
  · intro hmem
    simp only [List.append_assoc, List.mem_append] at hmem
    rcases hmem with h1 | h2 | h3 | h4 | h5
    · exact absurd (leafEncodingErrors_head _ _ h1)
        (fun hh => headChar_ne_elim hh rfl (by decide))
    · exact absurd (rootMismatchErrors_head _ _ _ h2)
        (fun hh => headChar_ne_elim hh rfl (by decide))
    · exact absurd (entriesErrors_head vs 0 le hE _ h3)
        (fun hh => headChar_ne_elim hh rfl (by decide))
    · exact absurd (dupErrors_head vs ld hD _ h4)
        (fun hh => headChar_ne_elim hh rfl (by decide))
    · exact (mem_ite_singleton h5).2
  · intro hlt
    have hseg : treeLengthErrors ts.length vs.length
        = ["Tree array too short: " ++ toString ts.length ++ " (expected at least "
            ++ toString (minTreeLength vs.length) ++ ")"] := by
      unfold treeLengthErrors
      rw [if_pos hlt]
    simp [hseg]

/-- Witness for C8: for five values the floor is 6; a five-element tree
yields exactly the too-short error and the membership equivalence holds
on both sides (5 < 6); a six-element tree yields no error and the
equivalence holds with both sides false. -/
theorem C8_tree_length_floor_witness :
    minTreeLength 5 = 6
    ∧ propValue (.obj exampleDoc5Fields) "values" = .arr exampleValues5
    ∧ propValue (.obj exampleDoc5Fields) "tree" = .arr exampleTree5
    ∧ validateMerkleTree (.obj exampleDoc5Fields) .null
        = .ok ["Tree array too short: 5 (expected at least 6)"]
    ∧ (("Tree array too short: " ++ toString exampleTree5.length ++ " (expected at least "
          ++ toString (minTreeLength exampleValues5.length) ++ ")")
        ∈ ["Tree array too short: 5 (expected at least 6)"]
        ↔ exampleTree5.length < minTreeLength exampleValues5.length)
    ∧ validateMerkleTree (.obj exampleDoc6Fields) .null = .ok []
    ∧ (("Tree array too short: " ++ toString exampleTree6.length ++ " (expected at least "
          ++ toString (minTreeLength exampleValues5.length) ++ ")")
        ∈ ([] : List String)
        ↔ exampleTree6.length < minTreeLength exampleValues5.length) :=
  ⟨rfl, rfl, rfl, rfl,
   C8_tree_length_floor exampleDoc5Fields exampleValues5 exampleTree5 .null _ rfl rfl rfl,
   rfl,
   C8_tree_length_floor exampleDoc6Fields exampleValues5 exampleTree6 .null _ rfl rfl rfl⟩

/-! ## Segment lemmas for the distribution validator -/

theorem count_zero_of_ne {t : String} (l : List String)
    (hl : ∀ s ∈ l, s ≠ t) : l.count t = 0 :=
  List.count_eq_zero.mpr (fun hm => hl t hm rfl)

theorem requiredLoop_head (data : JsValue) (flds : List String) (l : List String)
    (h : requiredLoop data flds = .ok l) : ∀ s ∈ l, s.data.head? = some 'M' := by
  induction flds generalizing l with
  | nil =>
      simp only [requiredLoop, Except.ok.injEq] at h
      subst h
      simp
  | cons f rest ih =>
      simp only [requiredLoop] at h
      cases hp : jsHasFieldE data f with
      | error m => rw [hp, except_bind_error] at h; cases h
      | ok present =>
          rw [hp, except_bind_ok] at h
          cases hr : requiredLoop data rest with
          | error m => rw [hr, except_bind_error] at h; cases h
          | ok t =>
              rw [hr, except_bind_ok] at h
              cases present with
              | true =>
                  simp only [if_true, except_bind_ok, except_pure_eq, Except.ok.injEq] at h
                  subst h
                  exact ih t hr
              | false =>
                  simp only [Bool.false_eq_true, if_false, except_bind_ok, except_pure_eq,
                    Except.ok.injEq] at h
                  subst h
                  intro s hs
                  rcases List.mem_cons.mp hs with rfl | h2
                  · rfl
                  · exact ih t hr s h2

theorem tokenLoop_head (token : JsValue) (flds : List String) (l : List String)
    (h : tokenLoop token flds = .ok l) : ∀ s ∈ l, s.data.head? = some 'M' := by
  induction flds generalizing l with
  | nil =>
      simp only [tokenLoop, Except.ok.injEq] at h
      subst h
      simp
  | cons f rest ih =>
      simp only [tokenLoop] at h
      cases hp : jsHasFieldE token f with
      | error m => rw [hp, except_bind_error] at h; cases h
      | ok present =>
          rw [hp, except_bind_ok] at h
          cases hr : tokenLoop token rest with
          | error m => rw [hr, except_bind_error] at h; cases h
          | ok t =>
              rw [hr, except_bind_ok] at h
              cases present with
              | true =>
                  simp only [if_true, except_bind_ok, except_pure_eq, Except.ok.injEq] at h
                  subst h
                  exact ih t hr
              | false =>
                  simp only [Bool.false_eq_true, if_false, except_bind_ok, except_pure_eq,
                    Except.ok.injEq] at h
                  subst h
                  intro s hs
                  rcases List.mem_cons.mp hs with rfl | h2
                  · rfl
                  · exact ih t hr s h2

theorem tokenErrors_head (data : JsValue) (l : List String)
    (h : tokenErrors data = .ok l) :
    ∀ s ∈ l, s.data.head? = some 'M' ∨ s.data.head? = some 'I' := by
  unfold tokenErrors at h
  by_cases htr : (!(propValue data "token").truthy) = true
  · rw [if_pos htr, except_pure_eq] at h
    simp only [Except.ok.injEq] at h
    subst h
    simp
  · rw [if_neg htr] at h
    cases hm : tokenLoop (propValue data "token") TOKEN_REQUIRED_FIELDS with
    | error m => rw [hm, except_bind_error] at h; cases h
    | ok missing =>
        rw [hm, except_bind_ok] at h
        simp only [except_bind_ok, except_pure_eq, Except.ok.injEq] at h
        subst h
        intro s hs
        rcases List.mem_append.mp hs with h1 | h2
        · exact Or.inl (tokenLoop_head _ _ missing hm s h1)
        · obtain ⟨rfl, -⟩ := mem_ite_singleton h2
          exact Or.inr rfl

theorem unsupportedChainErrors_head (data : JsValue) :
    ∀ s ∈ unsupportedChainErrors data, s.data.head? = some 'U' := by
  intro s hs
  unfold unsupportedChainErrors at hs
  obtain ⟨rfl, -⟩ := mem_ite_singleton hs
  rfl

theorem chainMismatchErrors_head (data : JsValue) :
    ∀ s ∈ chainMismatchErrors data, s.data.head? = some 'C' := by
  intro s hs
  unfold chainMismatchErrors at hs
  by_cases hc : ((propValue data "chainId").truthy && (propValue data "chainName").truthy) = true
  · rw [if_pos hc] at hs
    obtain ⟨rfl, -⟩ := mem_ite_singleton hs
    rfl
  · rw [if_neg hc] at hs
    simp at hs

theorem addressErrors_head (data : JsValue) :
    ∀ s ∈ addressErrors data, s.data.head? = some 'I' := by
  unfold addressErrors
  generalize addressFieldList data = l
  induction l with
  | nil => simp
  | cons p rest ih =>
      intro s hs
      simp only [List.foldr_cons, List.mem_append] at hs
      rcases hs with h1 | h2
      · obtain ⟨rfl, -⟩ := mem_ite_singleton h1; rfl
      · exact ih s h2

theorem merkleRootErrors_head (data : JsValue) :
    ∀ s ∈ merkleRootErrors data, s.data.head? = some 'I' := by
  intro s hs
  unfold merkleRootErrors at hs
  obtain ⟨rfl, -⟩ := mem_ite_singleton hs
  rfl

theorem totalRecipientsErrors_head (data : JsValue) :
    ∀ s ∈ totalRecipientsErrors data, s.data.head? = some 'I' := by
  intro s hs
  unfold totalRecipientsErrors at hs
  obtain ⟨rfl, -⟩ := mem_ite_singleton hs
  rfl

theorem jsHasFieldE_ok (v : JsValue) (k : String)
    (hv : v.isObj = true ∨ v.isArr = true) :
    jsHasFieldE v k = .ok (jsHasField v k) := by
  cases v with
  | obj fs => rfl
  | arr xs => rfl
  | undef => simp [JsValue.isObj, JsValue.isArr] at hv
  | null => simp [JsValue.isObj, JsValue.isArr] at hv
  | bool b => simp [JsValue.isObj, JsValue.isArr] at hv
  | num n => simp [JsValue.isObj, JsValue.isArr] at hv
  | str s => simp [JsValue.isObj, JsValue.isArr] at hv

theorem requiredLoop_ok (fs : List (String × JsValue)) (flds : List String) :
    ∃ l, requiredLoop (.obj fs) flds = .ok l := by
  induction flds with
  | nil => exact ⟨[], rfl⟩
  | cons f rest ih =>
      obtain ⟨t, ht⟩ := ih
      simp only [requiredLoop]
      rw [jsHasFieldE_ok (.obj fs) f (Or.inl rfl), except_bind_ok, ht, except_bind_ok]
      cases jsHasField (.obj fs) f with
      | true => exact ⟨t, rfl⟩
      | false => exact ⟨_, rfl⟩

theorem tokenLoop_ok (v : JsValue) (flds : List String)
    (hv : v.isObj = true ∨ v.isArr = true) :
    ∃ l, tokenLoop v flds = .ok l := by
  induction flds with
  | nil => exact ⟨[], rfl⟩
  | cons f rest ih =>
      obtain ⟨t, ht⟩ := ih
      simp only [tokenLoop]
      rw [jsHasFieldE_ok v f hv, except_bind_ok, ht, except_bind_ok]
      cases jsHasField v f with
      | true => exact ⟨t, rfl⟩
      | false => exact ⟨_, rfl⟩

theorem tokenErrors_ok (data : JsValue)
    (htok : (propValue data "token").truthy = false
      ∨ (propValue data "token").isObj = true
      ∨ (propValue data "token").isArr = true) :
    ∃ l, tokenErrors data = .ok l := by
  unfold tokenErrors
  by_cases htr : (!(propValue data "token").truthy) = true
  · rw [if_pos htr, except_pure_eq]
    exact ⟨[], rfl⟩
  · rw [if_neg htr]
    have hv : (propValue data "token").isObj = true ∨ (propValue data "token").isArr = true := by
      rcases htok with h | h | h
      · rw [h] at htr; simp at htr
      · exact Or.inl h
      · exact Or.inr h
    obtain ⟨missing, hm⟩ := tokenLoop_ok _ TOKEN_REQUIRED_FIELDS hv
    rw [hm, except_bind_ok]
    exact ⟨_, rfl⟩

/-- Decomposition of `validateDistributionFile` on an object document
whose `token` field is falsy or an object/array (so that no check
throws): the result is the concatenation of the seven check segments in
source order. -/
theorem validateDistributionFile_decomp (fs : List (String × JsValue))
    (htok : (propValue (.obj fs) "token").truthy = false
      ∨ (propValue (.obj fs) "token").isObj = true
      ∨ (propValue (.obj fs) "token").isArr = true) :
    ∃ req tok, requiredLoop (.obj fs) REQUIRED_FIELDS = .ok req
      ∧ tokenErrors (.obj fs) = .ok tok
      ∧ validateDistributionFile (.ok (.obj fs))
        = req ++ unsupportedChainErrors (.obj fs) ++ chainMismatchErrors (.obj fs)
          ++ addressErrors (.obj fs) ++ tok ++ merkleRootErrors (.obj fs)
          ++ totalRecipientsErrors (.obj fs) := by
  obtain ⟨req, hreq⟩ := requiredLoop_ok fs REQUIRED_FIELDS
  obtain ⟨tok, htokok⟩ := tokenErrors_ok _ htok
  refine ⟨req, tok, hreq, htokok, ?_⟩
  unfold validateDistributionFile distBodyChecks
  simp only [hreq, htokok]

/-- Decomposition of `validateDistributionFile` on an arbitrary object
document: the result starts with the four segments before the token
block, and everything after them has head character `M`, `I` or `F`. -/
theorem validateDistributionFile_front (fs : List (String × JsValue)) :
    ∃ req rest, requiredLoop (.obj fs) REQUIRED_FIELDS = .ok req
      ∧ validateDistributionFile (.ok (.obj fs))
        = req ++ unsupportedChainErrors (.obj fs) ++ chainMismatchErrors (.obj fs)
          ++ addressErrors (.obj fs) ++ rest
      ∧ (∀ s ∈ rest, s.data.head? = some 'M' ∨ s.data.head? = some 'I'
          ∨ s.data.head? = some 'F') := by
  obtain ⟨req, hreq⟩ := requiredLoop_ok fs REQUIRED_FIELDS
  cases htok : tokenErrors (.obj fs) with
  | error m =>
      refine ⟨req, ["Failed to parse JSON: " ++ m], hreq, ?_, ?_⟩
      · unfold validateDistributionFile distBodyChecks
        simp [hreq, htok]
      · intro s hs
        rcases List.mem_singleton.mp hs with rfl
        exact Or.inr (Or.inr rfl)
  | ok tok =>
      refine ⟨req,
        tok ++ merkleRootErrors (.obj fs) ++ totalRecipientsErrors (.obj fs), hreq, ?_, ?_⟩
      · unfold validateDistributionFile distBodyChecks
        simp [hreq, htok]
      · intro s hs
        simp only [List.append_assoc, List.mem_append] at hs
        rcases hs with h1 | h2 | h3
        · rcases tokenErrors_head _ _ htok s h1 with hM | hI
          · exact Or.inl hM
          · exact Or.inr (Or.inl hI)
        · exact Or.inr (Or.inl (merkleRootErrors_head _ s h2))
        · exact Or.inr (Or.inl (totalRecipientsErrors_head _ s h3))

theorem lookupChain_mem (l : List (String × Int)) (k : String) (v : Int)
    (h : lookupChain l k = some v) : (k, v) ∈ l := by
  induction l with
  | nil => simp [lookupChain] at h
  | cons p rest ih =>
      rcases p with ⟨a, b⟩
      simp only [lookupChain] at h
      by_cases hp : a = k
      · rw [if_pos hp] at h
        simp only [Option.some.injEq] at h
        subst hp
        subst h
        exact List.mem_cons_self _ _
      · rw [if_neg hp] at h
        exact List.mem_cons_of_mem _ (ih h)

/-! ## Claim C6 -/

/-- C6 counterexample: a document whose `merkleRoot` key is present with
the empty string — which does not match `^0x[a-fA-F0-9]{64}$` — produces
no invalid-merkleRoot error, because the check is guarded by truthiness
and the empty string is falsy. -/
theorem C6_counterexample :
    jsHasField (.obj [("merkleRoot", .str "")]) "merkleRoot" = true
    ∧ isValidBytes32 (.str "") = false
    ∧ (validateDistributionFile (.ok (.obj [("merkleRoot", .str "")]))).filter
        (fun s => List.isPrefixOf "Invalid merkleRoot".data s.data) = [] := by
  refine ⟨rfl, rfl, ?_⟩
  decide

/-- C6 (amended): a truthy `merkleRoot` value failing the bytes32 format
yields the invalid-merkleRoot error, provided the document is an object
and its `token` field (if truthy) is an object or array — a truthy
primitive `token` makes the token-field probe throw before the
merkle-root check, and a falsy `merkleRoot` (such as the empty string)
is never checked. -/
theorem C6_merkle_root_format (fs : List (String × JsValue))
    (hmr : (propValue (.obj fs) "merkleRoot").truthy = true)
    (hbad : isValidBytes32 (propValue (.obj fs) "merkleRoot") = false)
    (htok : (propValue (.obj fs) "token").truthy = false
      ∨ (propValue (.obj fs) "token").isObj = true
      ∨ (propValue (.obj fs) "token").isArr = true) :
    ("Invalid merkleRoot format: " ++ jsToString (propValue (.obj fs) "merkleRoot"))
      ∈ validateDistributionFile (.ok (.obj fs)) := by
  obtain ⟨req, tok, -, -, heq⟩ := validateDistributionFile_decomp fs htok
  rw [heq]
  have hseg : merkleRootErrors (.obj fs)
      = ["Invalid merkleRoot format: " ++ jsToString (propValue (.obj fs) "merkleRoot")] := by
    unfold merkleRootErrors
    rw [if_pos]
    simp [hmr, hbad]
  simp [hseg]

/-- Witness for C6 at a document with `merkleRoot` equal to `"xyz"`. -/
theorem C6_merkle_root_format_witness :
    (propValue (.obj [("merkleRoot", .str "xyz")]) "merkleRoot").truthy = true
    ∧ isValidBytes32 (propValue (.obj [("merkleRoot", .str "xyz")]) "merkleRoot") = false
    ∧ (propValue (.obj [("merkleRoot", .str "xyz")]) "token").truthy = false
    ∧ ("Invalid merkleRoot format: "
        ++ jsToString (propValue (.obj [("merkleRoot", .str "xyz")]) "merkleRoot"))
      ∈ validateDistributionFile (.ok (.obj [("merkleRoot", .str "xyz")])) :=
  ⟨rfl, rfl, rfl,
   C6_merkle_root_format [("merkleRoot", .str "xyz")] rfl rfl (Or.inl rfl)⟩

/-! ## Claim C7 -/

/-- C7 counterexample: with `chainId` present but equal to `0` and
`chainName` equal to `"ethereum"` (table id 1, different from 0), the
validator emits no chain-id mismatch error at all — the check is guarded
by the truthiness of `chainId`, and `0` is falsy — contradicting the
claimed exactly-one error. -/
theorem C7_counterexample :
    jsHasField (.obj [("chainId", .num 0), ("chainName", .str "ethereum")]) "chainId" = true
    ∧ jsHasField (.obj [("chainId", .num 0), ("chainName", .str "ethereum")]) "chainName" = true
    ∧ lookupChain SUPPORTED_CHAINS "ethereum" = some 1
    ∧ jsStrictEq (.num 1) (.num 0) = false
    ∧ (validateDistributionFile
        (.ok (.obj [("chainId", .num 0), ("chainName", .str "ethereum")]))).count
        "Chain ID mismatch: 0 vs expected 1" = 0 := by
  refine ⟨rfl, rfl, rfl, rfl, ?_⟩
  decide

/-- C7 (amended): when `chainId` and `chainName` are present with truthy
values (in particular a nonzero `chainId`), `chainName` is a key of the
chain table, and the table id differs from `chainId` under strict
equality, the validator emits exactly one chain-id mismatch error naming
both values. -/
theorem C7_chain_id_mismatch (fs : List (String × JsValue)) (name : String) (cid : Int)
    (hname : propValue (.obj fs) "chainName" = .str name)
    (hntr : (JsValue.str name).truthy = true)
    (hcid : (propValue (.obj fs) "chainId").truthy = true)
    (hlook : lookupChain SUPPORTED_CHAINS name = some cid)
    (hne : jsStrictEq (.num cid) (propValue (.obj fs) "chainId") = false) :
    (validateDistributionFile (.ok (.obj fs))).count
      ("Chain ID mismatch: " ++ jsToString (propValue (.obj fs) "chainId")
        ++ " vs expected " ++ jsToString (.num cid)) = 1 := by
  have hcv : chainLookupVal (.str name) = .num cid := by
    simp [chainLookupVal, hlook]
  have hcidtr : (JsValue.num cid).truthy = true := by
    have hmem : (name, cid) ∈ SUPPORTED_CHAINS := lookupChain_mem _ _ _ hlook
    have hz : ∀ p ∈ SUPPORTED_CHAINS, (JsValue.num p.2).truthy = true := by decide
    exact hz _ hmem
  have hseg : chainMismatchErrors (.obj fs)
      = ["Chain ID mismatch: " ++ jsToString (propValue (.obj fs) "chainId")
          ++ " vs expected " ++ jsToString (.num cid)] := by
    unfold chainMismatchErrors
    rw [hname, if_pos (by rw [hcid, hntr]; rfl), hcv, if_pos (by rw [hcidtr, hne]; rfl)]
  obtain ⟨req, rest, hreq, heq, hrest⟩ := validateDistributionFile_front fs
  rw [heq, hseg]
  simp only [List.count_append]
  have h1 : req.count ("Chain ID mismatch: " ++ jsToString (propValue (.obj fs) "chainId")
      ++ " vs expected " ++ jsToString (.num cid)) = 0 :=
    count_zero_of_ne _ (fun s hs =>
      ne_of_headChar (requiredLoop_head _ _ _ hreq s hs) rfl (by decide))
  have h2 : (unsupportedChainErrors (.obj fs)).count
      ("Chain ID mismatch: " ++ jsToString (propValue (.obj fs) "chainId")
        ++ " vs expected " ++ jsToString (.num cid)) = 0 :=
    count_zero_of_ne _ (fun s hs =>
      ne_of_headChar (unsupportedChainErrors_head _ s hs) rfl (by decide))
  have h3 : (addressErrors (.obj fs)).count
      ("Chain ID mismatch: " ++ jsToString (propValue (.obj fs) "chainId")
        ++ " vs expected " ++ jsToString (.num cid)) = 0 :=
    count_zero_of_ne _ (fun s hs =>
      ne_of_headChar (addressErrors_head _ s hs) rfl (by decide))
  have h4 : rest.count ("Chain ID mismatch: " ++ jsToString (propValue (.obj fs) "chainId")
      ++ " vs expected " ++ jsToString (.num cid)) = 0 :=
    count_zero_of_ne _ (fun s hs => by
      rcases hrest s hs with hh | hh | hh
      · exact ne_of_headChar hh rfl (by decide)
      · exact ne_of_headChar hh rfl (by decide)
      · exact ne_of_headChar hh rfl (by decide))
  rw [h1, h2, h3, h4]
  simp

/-- Witness for C7 at `chainName` `"ethereum"` with `chainId` 61. -/
theorem C7_chain_id_mismatch_witness :
    propValue (.obj [("chainId", .num 61), ("chainName", .str "ethereum")]) "chainName"
      = .str "ethereum"
    ∧ (JsValue.str "ethereum").truthy = true
    ∧ (propValue (.obj [("chainId", .num 61), ("chainName", .str "ethereum")]) "chainId").truthy
      = true
    ∧ lookupChain SUPPORTED_CHAINS "ethereum" = some 1
    ∧ jsStrictEq (.num 1)
        (propValue (.obj [("chainId", .num 61), ("chainName", .str "ethereum")]) "chainId")
      = false
    ∧ (validateDistributionFile
        (.ok (.obj [("chainId", .num 61), ("chainName", .str "ethereum")]))).count
        ("Chain ID mismatch: "
          ++ jsToString (propValue
              (.obj [("chainId", .num 61), ("chainName", .str "ethereum")]) "chainId")
          ++ " vs expected " ++ jsToString (.num 1)) = 1 :=
  ⟨rfl, rfl, rfl, rfl, rfl,
   C7_chain_id_mismatch [("chainId", .num 61), ("chainName", .str "ethereum")]
     "ethereum" 1 rfl rfl rfl rfl rfl⟩

/-! ## Claim C2 -/

/-- C2 counterexample: `ethers.isAddress` accepts a 40-hex-digit string
without the `0x` prefix (its entry regex makes the prefix optional),
which does not match the spec regex `^0x[a-fA-F0-9]{40}$` — so the
predicate does not accept exactly the spec-regex strings. -/
theorem C2_counterexample :
    isValidAddress (.str "1234567890123456789012345678901234567890") = true
    ∧ addrRegexMatch "1234567890123456789012345678901234567890" = false :=
  ⟨rfl, rfl⟩

/-- C2 (amended): the predicate accepts every `^0x[a-fA-F0-9]{40}$`
string containing no upper-case hex letter (in particular every
all-lower-case address), and rejects every string that is neither
`(0x)?[0-9a-fA-F]{40}` nor ICAP-shaped; strings with upper-case hex
letters are additionally subject to EIP-55 checksum validation, and
unprefixed 40-hex and checksummed ICAP strings are also accepted. -/
theorem C2_isAddress_vs_regex :
    (∀ s : String, addrRegexMatch s = true → hasUpperHexLetter s = false →
      isValidAddress (.str s) = true)
    ∧ (∀ s : String, ethersHex40 s = false → icapFormat s = false →
      isValidAddress (.str s) = false) := by
  constructor
  · intro s hreg hup
    obtain ⟨⟨h0x, hlen⟩, hhex⟩ : (startsWith0x s = true ∧ (s.data.length == 42) = true)
        ∧ (s.data.drop 2).all isHexDigitChar = true := by
      simpa [addrRegexMatch, Bool.and_eq_true] using hreg
    have hopt : ethersHex40 s = true := by
      unfold ethersHex40
      rw [if_pos h0x, hlen, hhex]
      rfl
    have hmix : hasMixedCaseHex s = false := by
      unfold hasMixedCaseHex
      rw [hup]
      rfl
    show ethersIsAddress s = true
    unfold ethersIsAddress
    rw [if_pos hopt, if_pos h0x, if_neg (by simp [hmix])]
  · intro s hh hi
    show ethersIsAddress s = false
    unfold ethersIsAddress
    rw [if_neg (by simp [hh]), if_neg (by simp [hi])]

/-- Witness for C2: a lower-case strict-format address is accepted; a
non-address string is rejected. -/
theorem C2_isAddress_vs_regex_witness :
    addrRegexMatch "0xaaaaaaaaaaaaaaaaaaaaaaaaaaaaaaaaaaaaaaaa" = true
    ∧ hasUpperHexLetter "0xaaaaaaaaaaaaaaaaaaaaaaaaaaaaaaaaaaaaaaaa" = false
    ∧ isValidAddress (.str "0xaaaaaaaaaaaaaaaaaaaaaaaaaaaaaaaaaaaaaaaa") = true
    ∧ ethersHex40 "hello" = false
    ∧ icapFormat "hello" = false
    ∧ isValidAddress (.str "hello") = false :=
  ⟨rfl, rfl, C2_isAddress_vs_regex.1 _ rfl rfl, rfl, rfl,
   C2_isAddress_vs_regex.2 _ rfl rfl⟩

end Saturn
